import Mathlib

/-!
Verification of the trussed-totp-pc-tutorial orchestration layer.

We shallowly embed the Rust sources (src/authenticator.rs, src/totp.rs,
src/wireguard.rs) in Lean.  Machine bytes are modelled as `Nat` values
(well-formedness `< 256` is carried as hypotheses where it matters),
fallible code returns `Except AppError`, and the trussed backend file
store is an explicit `String → Option (List Nat)` map threaded through
every operation.  Backend cryptographic primitives (SHA-256, X255 key
generation, TOTP signing) are parameters: the orchestration code treats
them as oracles behind the trussed client, and so do we.
-/

namespace TotpTutorial

/-- Errors of the embedded programs.  `panicked` models a Rust panic
(`syscall!` on an error reply, `expect`, `unwrap`, slice index or
division failures); `failure` models an `anyhow::anyhow!` error value
returned to the caller. -/
inductive AppError where
  | panicked : String → AppError
  | failure : String → AppError
deriving DecidableEq, Repr

deriving instance DecidableEq for Except

/-! ## Postcard wire format

The repository serializes its records with `postcard` (serde derive).
We embed the wire format for exactly the shapes the records use:
LEB128 varints for `u64` (at most 10 bytes, final byte at most 1),
varint-length-prefixed raw bytes for `heapless` byte buffers
(capacity-checked on deserialization), a single `0`/`1` byte for
`bool`, a `0`/`1` tag for `Option`, a varint count followed by the
elements for a `heapless::Vec` (capacity-checked), 16 raw bytes for a
`trussed::types::ObjectHandle` (a 16-byte unique id), and field
concatenation for structs. -/

/-- Fuel-driven worker of the varint encoder; the fuel only serves
structural termination and never runs out when it exceeds the value. -/
def encodeVarintGo (fuel n : Nat) : List Nat :=
  match fuel with
  | 0 => []
  | fuel + 1 =>
    if n < 128 then [n]
    else (n % 128 + 128) :: encodeVarintGo fuel (n / 128)

/-- `postcard` varint encoding of an unsigned integer (LEB128,
little-endian 7-bit groups, continuation bit `0x80`). -/
def encodeVarint (n : Nat) : List Nat :=
  encodeVarintGo (n + 1) n

/-- `postcard` varint decoding for `u64` (`try_take_varint_u64`): at
most 10 bytes, and the tenth byte may only be `0` or `1`; `idx` counts
the bytes already consumed.  Returns the decoded value and the unread
remainder of the input. -/
def parseVarintAux : Nat → List Nat → Option (Nat × List Nat)
  | _, [] => none
  | idx, b :: rest =>
    if b % 256 < 128 then
      if idx = 9 && !(b % 256 ≤ 1) then none
      else some (b % 256, rest)
    else
      if idx = 9 then none
      else
        match parseVarintAux (idx + 1) rest with
        | some (v, r) => some (b % 128 + 128 * v, r)
        | none => none

/-- Entry point of the `u64` varint parser. -/
def parseVarint (bytes : List Nat) : Option (Nat × List Nat) :=
  parseVarintAux 0 bytes

/-- Varint-length-prefixed byte string, capacity-checked against `cap`
on decode (the `heapless` byte buffer rejects longer inputs). -/
def encodeBytes (l : List Nat) : List Nat :=
  encodeVarint l.length ++ l

/-- Parse a length-prefixed byte string of at most `cap` bytes. -/
def parseBytes (cap : Nat) (bytes : List Nat) : Option (List Nat × List Nat) :=
  match parseVarint bytes with
  | none => none
  | some (len, rest) =>
    if len ≤ cap ∧ len ≤ rest.length then
      some (rest.take len, rest.drop len)
    else none

/-- A `trussed::types::ObjectHandle`: an opaque backend key reference
carrying a 16-byte unique id, serialized as the 16 raw bytes. -/
structure ObjectHandle where
  object_id : List Nat
deriving DecidableEq, Repr

/-- Well-formed handle: exactly 16 id bytes, each a byte. -/
def ObjectHandle.wf (h : ObjectHandle) : Prop :=
  h.object_id.length = 16 ∧ ∀ b ∈ h.object_id, b < 256

instance (h : ObjectHandle) : Decidable h.wf := by
  unfold ObjectHandle.wf; infer_instance

/-- Serialize an `ObjectHandle` (16 raw bytes, no prefix). -/
def encodeHandle (h : ObjectHandle) : List Nat :=
  h.object_id

/-- Parse an `ObjectHandle` (16 raw bytes). -/
def parseHandle (bytes : List Nat) : Option (ObjectHandle × List Nat) :=
  if 16 ≤ bytes.length then
    some (⟨bytes.take 16⟩, bytes.drop 16)
  else none

/-- `postcard` encoding of `bool` (one byte, `0` or `1`). -/
def encodeBool (b : Bool) : List Nat :=
  [if b then 1 else 0]

/-- `postcard` decoding of `bool`: exactly `0` or `1` is accepted. -/
def parseBool (bytes : List Nat) : Option (Bool × List Nat) :=
  match bytes with
  | [] => none
  | b :: rest =>
    if b = 0 then some (false, rest)
    else if b = 1 then some (true, rest)
    else none

/-! ## The persisted records (src/wireguard.rs, src/authenticator.rs) -/

/-- `UnlockStatus { is_unlocked: bool }` (src/wireguard.rs). -/
structure UnlockStatus where
  is_unlocked : Bool
deriving DecidableEq, Repr

/-- `postcard` serialization of `UnlockStatus` (single `bool` field). -/
def encodeUnlockStatus (s : UnlockStatus) : List Nat :=
  encodeBool s.is_unlocked

/-- `postcard::from_bytes::<UnlockStatus>` (trailing bytes ignored). -/
def decodeUnlockStatus (bytes : List Nat) : Option UnlockStatus :=
  (parseBool bytes).map fun p => ⟨p.1⟩

/-- `KeyInfo { label: ByteBuf<U256>, privkey: ObjectHandle }`
(src/wireguard.rs), the vault entry persisted in the key store. -/
structure KeyInfo where
  label : List Nat
  privkey : ObjectHandle
deriving DecidableEq, Repr

/-- Valid `KeyInfo`: the label fits the 256-byte buffer and holds
bytes, the handle is a 16-byte id. -/
def KeyInfo.wf (k : KeyInfo) : Prop :=
  k.label.length ≤ 256 ∧ (∀ b ∈ k.label, b < 256) ∧ k.privkey.wf

instance (k : KeyInfo) : Decidable k.wf := by
  unfold KeyInfo.wf; infer_instance

/-- `postcard` serialization of `KeyInfo` (field concatenation). -/
def encodeKeyInfo (k : KeyInfo) : List Nat :=
  encodeBytes k.label ++ encodeHandle k.privkey

/-- Parse a `KeyInfo`. -/
def parseKeyInfo (bytes : List Nat) : Option (KeyInfo × List Nat) :=
  match parseBytes 256 bytes with
  | none => none
  | some (lab, r1) =>
    match parseHandle r1 with
    | none => none
    | some (h, r2) => some (⟨lab, h⟩, r2)

/-- `postcard::from_bytes::<KeyInfo>` (trailing bytes ignored). -/
def decodeKeyInfo (bytes : List Nat) : Option KeyInfo :=
  (parseKeyInfo bytes).map (·.1)

/-- `Credential { label: ByteBuf<U256>, period_seconds: u64,
key_handle: ObjectHandle }` (src/authenticator.rs). -/
structure Credential where
  label : List Nat
  period_seconds : Nat
  key_handle : ObjectHandle
deriving DecidableEq, Repr

/-- Valid `Credential`: bounded byte-string label, `u64` period,
16-byte handle id. -/
def Credential.wf (c : Credential) : Prop :=
  c.label.length ≤ 256 ∧ (∀ b ∈ c.label, b < 256) ∧
    c.period_seconds < 2 ^ 64 ∧ c.key_handle.wf

instance (c : Credential) : Decidable c.wf := by
  unfold Credential.wf; infer_instance

/-- `postcard` serialization of `Credential` (field concatenation). -/
def encodeCredential (c : Credential) : List Nat :=
  encodeBytes c.label ++ encodeVarint c.period_seconds ++ encodeHandle c.key_handle

/-- Parse a `Credential`. -/
def parseCredential (bytes : List Nat) : Option (Credential × List Nat) :=
  match parseBytes 256 bytes with
  | none => none
  | some (lab, r1) =>
    match parseVarint r1 with
    | none => none
    | some (p, r2) =>
      match parseHandle r2 with
      | none => none
      | some (h, r3) => some (⟨lab, p, h⟩, r3)

/-- `postcard::from_bytes::<Credential>` (trailing bytes ignored). -/
def decodeCredential (bytes : List Nat) : Option Credential :=
  (parseCredential bytes).map (·.1)

/-- `postcard` serialization of `Option<KeyInfo>` (`0` tag for `None`,
`1` tag followed by the payload for `Some`). -/
def encodeOptionKeyInfo : Option KeyInfo → List Nat
  | none => [0]
  | some k => 1 :: encodeKeyInfo k

/-- Parse an `Option<KeyInfo>`; tags other than `0`/`1` are rejected. -/
def parseOptionKeyInfo (bytes : List Nat) : Option (Option KeyInfo × List Nat) :=
  match bytes with
  | [] => none
  | t :: rest =>
    if t = 0 then some (none, rest)
    else if t = 1 then
      match parseKeyInfo rest with
      | none => none
      | some (k, r) => some (some k, r)
    else none

/-- The vault collection `heapless::Vec<Option<KeyInfo>, U8>` is
serialized as a varint element count followed by the elements; the
deserializer pushes into a capacity-8 vector and fails beyond it. -/
def encodeKeyVault (v : List (Option KeyInfo)) : List Nat :=
  encodeVarint v.length ++ (v.map encodeOptionKeyInfo).flatten

/-- Parse exactly `n` vault elements. -/
def parseVaultElems : Nat → List Nat → Option (List (Option KeyInfo) × List Nat)
  | 0, bytes => some ([], bytes)
  | n + 1, bytes =>
    match parseOptionKeyInfo bytes with
    | none => none
    | some (e, r1) =>
      match parseVaultElems n r1 with
      | none => none
      | some (es, r2) => some (e :: es, r2)

/-- Parse the vault collection (count then elements, capacity 8). -/
def parseKeyVault (bytes : List Nat) : Option (List (Option KeyInfo) × List Nat) :=
  match parseVarint bytes with
  | none => none
  | some (len, rest) =>
    if len ≤ 8 then parseVaultElems len rest else none

/-- `postcard::from_bytes::<Vec<Option<KeyInfo>, U8>>` (trailing bytes
ignored). -/
def decodeKeyVault (bytes : List Nat) : Option (List (Option KeyInfo)) :=
  (parseKeyVault bytes).map (·.1)

/-- Valid vault collection: at most 8 slots, every present entry valid. -/
def vaultWf (v : List (Option KeyInfo)) : Prop :=
  v.length ≤ 8 ∧ ∀ e ∈ v, ∀ k, e = some k → k.wf

instance (v : List (Option KeyInfo)) : Decidable (vaultWf v) := by
  unfold vaultWf; infer_instance

/-! ## The trussed path-addressed file store -/

/-- The backend file store: a flat map from path to file contents.
`read_file` on an absent path yields an error reply (which `syscall!`
turns into a panic); `write_file` overwrites. -/
abbrev FileStore := String → Option (List Nat)

/-- The empty store (fresh device state, no file written yet). -/
def FileStore.empty : FileStore := fun _ => none

/-- `write_file`: overwrite the contents at `path`. -/
def FileStore.write (s : FileStore) (path : String) (data : List Nat) : FileStore :=
  fun q => if q = path then some data else s q

/-- `write_file` preceded by `ByteBuf::try_from_slice(..).unwrap()`:
the data must fit the 1024-byte `trussed::types::Message` buffer,
otherwise the `unwrap` panics. -/
def writeMessage (store : FileStore) (path : String) (data : List Nat) :
    Except AppError FileStore :=
  if data.length ≤ 1024 then .ok (store.write path data)
  else .error (.panicked "ByteBuf try_from_slice failed")

/-! ## Shared helpers: UTF-8 label bytes, hex rendering, u64 bytes -/

/-- UTF-8 encoding of one character (`Char` holds a unicode scalar). -/
def utf8EncodeCharNat (c : Char) : List Nat :=
  let n := c.toNat
  if n < 128 then [n]
  else if n < 2048 then [192 + n / 64, 128 + n % 64]
  else if n < 65536 then [224 + n / 4096, 128 + n / 64 % 64, 128 + n % 64]
  else [240 + n / 262144, 128 + n / 4096 % 64, 128 + n / 64 % 64, 128 + n % 64]

/-- `str::as_bytes`: the UTF-8 bytes of a Rust string. -/
def strBytes (s : String) : List Nat :=
  (s.data.map utf8EncodeCharNat).flatten

/-- The lowercase hexadecimal digits, as indexed by `format_hex`
(src/totp.rs) and produced by `delog::hexstr!` (src/authenticator.rs). -/
def hexChars : List Char :=
  "0123456789abcdef".data

/-- The two lowercase hex digits of one byte: high nibble `b >> 4`,
low nibble `b & 0xf`. -/
def hexByte (b : Nat) : List Char :=
  [hexChars.getD (b / 16) '?', hexChars.getD (b % 16) '?']

/-- Lowercase hex rendering of a byte sequence. -/
def hexRender (bytes : List Nat) : String :=
  ⟨(bytes.map hexByte).flatten⟩

/-- `u64::from_le_bytes`: read bytes as a little-endian integer. -/
def u64le (bytes : List Nat) : Nat :=
  bytes.foldr (fun b acc => acc * 256 + b % 256) 0

/-! ## Wireguard key vault (src/wireguard.rs) -/

/-- `GetAead` request parameters: peer public key, chaining values C
and H, and the key identifier. -/
structure GetAead where
  pubkey : List Nat
  c : List Nat
  h : List Nat
  key_id : Nat
deriving DecidableEq, Repr

/-- `Unlock` request parameters. -/
structure Unlock where
  pin : String
deriving DecidableEq, Repr

/-- `RegisterKeyPair` request parameters. -/
structure RegisterKeyPair where
  privkey : List Nat
  pubkey : List Nat
  label : String
deriving DecidableEq, Repr

/-- `UpdateKeyPair` request parameters. -/
structure UpdateKeyPair where
  privkey : List Nat
  pubkey : List Nat
  label : String
deriving DecidableEq, Repr

/-- `DeleteKeyPair` request parameters. -/
structure DeleteKeyPair where
  uid : Nat
deriving DecidableEq, Repr

/-- `GenerateKeyPair` request parameters. -/
structure GenerateKeyPair where
  label : String
deriving DecidableEq, Repr

/-- `SetUnlockSecret` request parameters. -/
structure SetUnlockSecret where
  secret : String
deriving DecidableEq, Repr

/-- The `AEAD` response: a 32-byte opaque value. -/
structure AEAD where
  bytes : List Nat
deriving DecidableEq, Repr

/-- The `KeyResponse` response value. -/
structure KeyResponse where
  id : Nat
  label : String
  pubkey : List Nat
deriving DecidableEq, Repr

/-- Path of the persisted unlock flag. -/
def unlockedStatusPath : String := "/wg/unlocked_status"

/-- Path of the persisted key-store collection. -/
def keyStorePath : String := "/wg/key_store"

/-- `Wireguard::is_unlocked`: read the status file (`syscall!` panics
when the file is absent) and deserialize it (`expect` panics when the
bytes do not decode). -/
def Wireguard.is_unlocked (store : FileStore) : Except AppError Bool :=
  match store unlockedStatusPath with
  | none => .error (.panicked "read_file failed")
  | some data =>
    match decodeUnlockStatus data with
    | none => .error (.panicked "unable to deserialize")
    | some locked_status => .ok locked_status.is_unlocked

/-- `Wireguard::set_unlock_status`: serialize the flag into a 512-byte
buffer (`expect` panics on overflow, impossible for one byte) and
overwrite the status file. -/
def Wireguard.set_unlock_status (store : FileStore) (status : Bool) :
    Except AppError FileStore :=
  let serialized := encodeUnlockStatus ⟨status⟩
  if serialized.length > 512 then .error (.panicked "cannot serialize")
  else writeMessage store unlockedStatusPath serialized

/-- `Wireguard::get_list_keys`: read the key-store file (`syscall!`
panics when the file is absent); bytes that fail to deserialize are
replaced by the empty collection. -/
def Wireguard.get_list_keys (store : FileStore) :
    Except AppError (List (Option KeyInfo)) :=
  match store keyStorePath with
  | none => .error (.panicked "read_file failed")
  | some data =>
    match decodeKeyVault data with
    | some key_infos => .ok key_infos
    | none => .ok []

/-- The duplicate scan of `Wireguard::add_to_key_store`: some slot
holds a present entry whose label equals `lab`
(`ele.is_some() && ele.clone().unwrap().label == val.label`). -/
def labelInVault (key_infos : List (Option KeyInfo)) (lab : List Nat) : Bool :=
  key_infos.any fun ele =>
    match ele with
    | some k => k.label == lab
    | none => false

/-- `Wireguard::add_to_key_store`: load the collection, fail when a
present entry already carries the same label, `push` the new entry
with a silently ignored push error (a full vector simply drops the
entry), serialize into a 10000-byte buffer (`expect` panics on
overflow) and rewrite the collection file. -/
def Wireguard.add_to_key_store (store : FileStore) (val : KeyInfo) :
    Except AppError FileStore :=
  match Wireguard.get_list_keys store with
  | .error e => .error e
  | .ok key_infos =>
    if labelInVault key_infos val.label then
      .error (.failure "This key exists")
    else
      let key_infos' := if key_infos.length < 8 then key_infos ++ [some val] else key_infos
      let serialized := encodeKeyVault key_infos'
      if serialized.length > 10000 then .error (.panicked "cannot serialize")
      else writeMessage store keyStorePath serialized

/-- `Wireguard::is_secret_equal`: the pin comparison stub, always
accepting. -/
def Wireguard.is_secret_equal (_secret : String) : Bool :=
  true

/-- `Wireguard::set_unlock_secret`: a stub, succeeds without effect. -/
def Wireguard.set_unlock_secret (store : FileStore) (_parameters : SetUnlockSecret) :
    Except AppError FileStore :=
  .ok store

/-- `Wireguard::unlock`: compare the pin (stub always accepts),
persist the unlocked flag, and re-read it for the status print. -/
def Wireguard.unlock (store : FileStore) (parameters : Unlock) :
    Except AppError FileStore :=
  if !(Wireguard.is_secret_equal parameters.pin) then
    .error (.failure "Secret does not match")
  else
    match Wireguard.set_unlock_status store true with
    | .error e => .error e
    | .ok store' =>
      match Wireguard.is_unlocked store' with
      | .error e => .error e
      | .ok _ => .ok store'

/-- `Wireguard::register_key_pair`: check the unlock gate, then (a
stub) return a placeholder response without touching storage. -/
def Wireguard.register_key_pair (store : FileStore) (_parameters : RegisterKeyPair) :
    Except AppError (KeyResponse × FileStore) :=
  match Wireguard.is_unlocked store with
  | .error e => .error e
  | .ok u =>
    if !u then .error (.failure "Device is locked. Unlock first.")
    else .ok ({ id := 0, label := "A key label!", pubkey := List.replicate 32 0 }, store)

/-- `Wireguard::update_key_pair`: a stub with no unlock-gate check,
returns a placeholder response without touching storage. -/
def Wireguard.update_key_pair (store : FileStore) (_parameters : UpdateKeyPair) :
    Except AppError (KeyResponse × FileStore) :=
  .ok ({ id := 0, label := "A key label!", pubkey := List.replicate 32 0 }, store)

/-- `Wireguard::delete_key_pair`: a stub with no unlock-gate check,
returns success without touching storage. -/
def Wireguard.delete_key_pair (store : FileStore) (_parameters : DeleteKeyPair) :
    Except AppError (Unit × FileStore) :=
  .ok ((), store)

/-- `Wireguard::list_keys`: load the collection (panicking when the
file is absent), `unwrap` each slot for printing (panicking on an
empty slot), and return a placeholder response. -/
def Wireguard.list_keys (store : FileStore) : Except AppError KeyResponse :=
  match Wireguard.get_list_keys store with
  | .error e => .error e
  | .ok key_list =>
    if key_list.any Option.isNone then
      .error (.panicked "called unwrap on a None value")
    else .ok { id := 0, label := "A key label!", pubkey := List.replicate 32 0 }

/-- `Wireguard::generate_key_pair`.  Backend key generation and
public-key serialization are the oracle inputs `privkey` (the fresh
secret key handle) and `pub_serialized` (the serialized public key
bytes).  No unlock-gate check appears in the source: the method goes
straight to key generation and storage.  The response public key is a
zero array overwritten element-wise by the serialized bytes. -/
def Wireguard.generate_key_pair (store : FileStore) (parameters : GenerateKeyPair)
    (privkey : ObjectHandle) (pub_serialized : List Nat) :
    Except AppError (KeyResponse × FileStore) :=
  let label_bytes := strBytes parameters.label
  if label_bytes.length > 256 then .error (.failure "no error")
  else
    match Wireguard.add_to_key_store store ⟨label_bytes, privkey⟩ with
    | .error e => .error e
    | .ok store' =>
      .ok ({ id := 0, label := parameters.label,
             pubkey := pub_serialized.take 32 ++
               List.replicate (32 - pub_serialized.length) 0 }, store')

/-- `Wireguard::get_aead`: prints its parameters and returns the
constant all-zero 32-byte AEAD value; neither the store nor the
parameters influence the result. -/
def Wireguard.get_aead (store : FileStore) (parameters : GetAead) :
    Except AppError AEAD :=
  .ok ⟨List.replicate 32 0⟩

/-! ## TOTP authenticator (src/authenticator.rs) -/

/-- `Register` command parameters. -/
structure Register where
  label : String
  base32_secret : String
  period_seconds : Nat
deriving DecidableEq, Repr

/-- `Authenticate` command parameters. -/
structure Authenticate where
  label : String
  timestamp : Nat
deriving DecidableEq, Repr

/-- The one-time password response `Otp(u64)`. -/
structure Otp where
  val : Nat
deriving DecidableEq, Repr

/-- Value of one RFC 4648 base32 symbol (uppercase letters `A`-`Z`
and digits `2`-`7`), as accepted by `data_encoding::BASE32`. -/
def b32val (c : Char) : Option Nat :=
  if 'A' ≤ c ∧ c ≤ 'Z' then some (c.toNat - 'A'.toNat)
  else if '2' ≤ c ∧ c ≤ '7' then some (c.toNat - '2'.toNat + 26)
  else none

/-- Pack 5-bit base32 symbol values into bytes, most significant bits
first; the bits left over after the final full byte must be zero
(canonical-encoding check). -/
def b32pack : List Nat → Nat → Nat → Option (List Nat)
  | [], acc, _accBits => if acc = 0 then some [] else none
  | v :: vs, acc, accBits =>
    let acc' := acc * 32 + v
    let bits := accBits + 5
    if 8 ≤ bits then
      match b32pack vs (acc' % 2 ^ (bits - 8)) (bits - 8) with
      | some bytes => some (acc' / 2 ^ (bits - 8) :: bytes)
      | none => none
    else
      b32pack vs acc' bits

/-- Count of trailing `=` pad characters. -/
def countTrailingPad (cs : List Char) : Nat :=
  (cs.reverse.takeWhile (fun c => c = '=')).length

/-- `data_encoding::BASE32.decode` (canonical RFC 4648 base32 with
padding): the length must be a multiple of 8; pad characters appear
only at the end, in an amount valid for a final block (0, 1, 3, 4 or
6); every data symbol must be in the alphabet; the leftover bits of
the final symbol must be zero. -/
def base32Decode (s : String) : Option (List Nat) :=
  let cs := s.data
  if cs.length % 8 ≠ 0 then none
  else
    let pad := countTrailingPad cs
    let dataCs := cs.take (cs.length - pad)
    if dataCs.any (fun c => c = '=') then none
    else if ¬(pad = 0 ∨ pad = 1 ∨ pad = 3 ∨ pad = 4 ∨ pad = 6) then none
    else
      match dataCs.mapM b32val with
      | none => none
      | some vals => b32pack vals 0 0

/-- `Authenticator::filename_for_label`: hash the label bytes with
the backend (SHA-256, the oracle `hash`) and render the first 8
digest bytes as 16 lowercase hex characters forming the storage path
(src/authenticator.rs uses `delog::hexstr!`, src/totp.rs the
equivalent explicit `format_hex`). -/
def Authenticator.filename_for_label (hash : List Nat → List Nat) (label : String) :
    String :=
  hexRender ((hash (strBytes label)).take 8)

/-- `Authenticator::register`: decode the base32 secret (typed
failure on bad symbols), require exactly 20 raw bytes (typed failure
otherwise), inject the raw secret into the backend (the oracle
`injected` is the key handle the backend returns), build the
credential (the label must fit its 256-byte buffer), serialize it
into a 512-byte buffer (typed failure on overflow), and write it at
the label-derived path, overwriting any previous file there. -/
def Authenticator.register (hash : List Nat → List Nat) (injected : ObjectHandle)
    (store : FileStore) (parameters : Register) : Except AppError FileStore :=
  match base32Decode parameters.base32_secret with
  | none => .error (.failure "base32 decode error")
  | some raw_key_bytes =>
    if raw_key_bytes.length ≠ 20 then
      .error (.failure "could not convert slice to array")
    else
      let label_bytes := strBytes parameters.label
      if label_bytes.length > 256 then .error (.failure "no error")
      else
        let serialized := encodeCredential ⟨label_bytes, parameters.period_seconds, injected⟩
        if serialized.length > 512 then
          .error (.failure "postcard serialization error")
        else
          writeMessage store (Authenticator.filename_for_label hash parameters.label)
            serialized

/-- `Authenticator::authenticate`: read the file at the label-derived
path (typed failure when absent), deserialize the credential (typed
failure when corrupt), compute `counter = timestamp / period_seconds`
(u64 division, which panics when the period is zero), call the
backend TOTP signing oracle with the counter, require user presence
within the 5000 ms timeout (typed failure on timeout), and return the
first 8 signature bytes read as a little-endian u64 (the slice panics
when the signature is shorter). -/
def Authenticator.authenticate (hash : List Nat → List Nat)
    (sign_totp : ObjectHandle → Nat → List Nat) (user_present : Bool)
    (store : FileStore) (parameters : Authenticate) : Except AppError Otp :=
  match store (Authenticator.filename_for_label hash parameters.label) with
  | none => .error (.failure "Could not find a credential with this label")
  | some serialized_credential =>
    match decodeCredential serialized_credential with
    | none => .error (.failure "postcard deserialization error")
    | some credential =>
      if credential.period_seconds = 0 then
        .error (.panicked "attempt to divide by zero")
      else
        let counter := parameters.timestamp / credential.period_seconds
        let otp := sign_totp credential.key_handle counter
        if !user_present then
          .error (.failure "Could not obtain confirmation of user presence!")
        else if otp.length < 8 then
          .error (.panicked "range end index out of range for slice")
        else .ok ⟨u64le (otp.take 8)⟩

/-- The labels of the present entries of a vault collection, in slot
order. -/
def presentLabels (v : List (Option KeyInfo)) : List (List Nat) :=
  v.filterMap fun e => e.map KeyInfo.label

/-- Dedup invariant: no two present entries carry the same label. -/
def distinctLabels (v : List (Option KeyInfo)) : Prop :=
  (presentLabels v).Nodup

instance (v : List (Option KeyInfo)) : Decidable (distinctLabels v) := by
  unfold distinctLabels; infer_instance

/-! ## Concrete device states and records used as test inputs -/

/-- A 16-byte key handle fixture. -/
def handle1 : ObjectHandle := ⟨List.replicate 16 1⟩

/-- A second 16-byte key handle fixture. -/
def handle2 : ObjectHandle := ⟨List.replicate 16 2⟩

/-- A device state with the unlock flag persisted as locked and an
empty key-store collection present. -/
def lockedStore : FileStore :=
  (FileStore.empty.write unlockedStatusPath (encodeUnlockStatus ⟨false⟩)).write
    keyStorePath (encodeKeyVault [])

/-- Eight present vault entries with the distinct labels k1 … k8. -/
def fullVault : List (Option KeyInfo) :=
  [some ⟨strBytes "k1", handle1⟩, some ⟨strBytes "k2", handle1⟩,
   some ⟨strBytes "k3", handle1⟩, some ⟨strBytes "k4", handle1⟩,
   some ⟨strBytes "k5", handle1⟩, some ⟨strBytes "k6", handle1⟩,
   some ⟨strBytes "k7", handle1⟩, some ⟨strBytes "k8", handle1⟩]

/-- A store whose key-store file holds the full 8-slot collection. -/
def fullStore : FileStore :=
  FileStore.empty.write keyStorePath (encodeKeyVault fullVault)

/-- An unlocked device state whose collection holds one entry. -/
def unlockedOneKeyStore : FileStore :=
  (FileStore.empty.write unlockedStatusPath (encodeUnlockStatus ⟨true⟩)).write
    keyStorePath (encodeKeyVault [some ⟨strBytes "k1", handle1⟩])

/-- A store whose key-store file holds undecodable bytes (a claimed
element count of 2 followed by no element data). -/
def corruptStore : FileStore :=
  FileStore.empty.write keyStorePath [2]

/-- A store whose collection holds an entry labelled k1, used to
exercise the duplicate-label rejection. -/
def oneKeyStore : FileStore :=
  FileStore.empty.write keyStorePath (encodeKeyVault [some ⟨strBytes "k1", handle1⟩])

/-- A sample credential (alice, period 30 s). -/
def sampleCredential : Credential := ⟨strBytes "alice@example", 30, handle1⟩

/-- A sample vault with one present entry and one tombstone. -/
def sampleVault : List (Option KeyInfo) :=
  [some ⟨strBytes "a", handle1⟩, none]

/-- A degenerate SHA-256 oracle mapping everything to 32 zero bytes
(the embedding treats the backend hash as an oracle; any function
works for exercising the orchestration logic). -/
def hashZero : List Nat → List Nat := fun _ => List.replicate 32 0

/-- A degenerate TOTP signing oracle: 8 signature bytes, every byte
the counter value reduced mod 256. -/
def signEcho : ObjectHandle → Nat → List Nat := fun _ counter =>
  List.replicate 8 (counter % 256)

/-- A 32-symbol base32 secret decoding to 20 bytes. -/
def secret32 : String := "JBSWY3DPEHPK3PXPJBSWY3DPEHPK3PXP"

/-- A store holding the sample credential at its label-derived path. -/
def credStore : FileStore :=
  FileStore.empty.write (Authenticator.filename_for_label hashZero "alice@example")
    (encodeCredential sampleCredential)

/-! ## Theorems: codec round-trips -/

/-! ### Varint round-trip -/

theorem encodeVarintGo_congr (n : Nat) : ∀ f1 f2 : Nat, n < f1 → n < f2 →
    encodeVarintGo f1 n = encodeVarintGo f2 n := by
  induction n using Nat.strong_induction_on with
  | _ n ih =>
    intro f1 f2 h1 h2
    obtain ⟨g1, rfl⟩ : ∃ g1, f1 = g1 + 1 := ⟨f1 - 1, by omega⟩
    obtain ⟨g2, rfl⟩ : ∃ g2, f2 = g2 + 1 := ⟨f2 - 1, by omega⟩
    by_cases hs : n < 128
    · simp [encodeVarintGo, hs]
    · have hdiv : n / 128 < n := Nat.div_lt_self (by omega) (by omega)
      simp only [encodeVarintGo, hs, if_false]
      rw [ih (n / 128) hdiv g1 g2 (by omega) (by omega)]

theorem encodeVarint_small (n : Nat) (h : n < 128) : encodeVarint n = [n] := by
  unfold encodeVarint encodeVarintGo; simp [h]

theorem encodeVarint_large (n : Nat) (h : ¬ n < 128) :
    encodeVarint n = (n % 128 + 128) :: encodeVarint (n / 128) := by
  unfold encodeVarint
  have hdiv : n / 128 < n := Nat.div_lt_self (by omega) (by omega)
  have hstep : encodeVarintGo (n + 1) n =
      (n % 128 + 128) :: encodeVarintGo n (n / 128) := by
    simp [encodeVarintGo, h]
  rw [hstep, encodeVarintGo_congr (n / 128) n (n / 128 + 1) (by omega) (by omega)]

/-- Parsing an encoded varint from position `idx` recovers the value,
provided the value fits in the bytes the parser is still willing to
read (`n < 2 ^ (64 - 7 * idx)`). -/
theorem parseVarintAux_encode (n : Nat) (idx : Nat) (rest : List Nat)
    (hidx : idx ≤ 9) (hn : n < 2 ^ (64 - 7 * idx)) :
    parseVarintAux idx (encodeVarint n ++ rest) = some (n, rest) := by
  induction n using Nat.strong_induction_on generalizing idx with
  | _ n ih =>
    by_cases h : n < 128
    · rw [encodeVarint_small n h]
      have hmod : n % 256 = n := Nat.mod_eq_of_lt (by omega)
      by_cases h9 : idx = 9
      · subst h9
        have hle : n ≤ 1 := by
          have h1 : (64 : Nat) - 7 * 9 = 1 := by norm_num
          rw [h1] at hn; omega
        simp [parseVarintAux, hmod, h, hle]
      · simp [parseVarintAux, hmod, h, h9]
    · rw [encodeVarint_large n h]
      have hb : ¬ (n % 128 + 128) % 256 < 128 := by omega
      have h9 : idx ≠ 9 := by
        intro h9; subst h9
        have h1 : (64 : Nat) - 7 * 9 = 1 := by norm_num
        rw [h1] at hn; omega
      have hlt : n / 128 < n := Nat.div_lt_self (by omega) (by omega)
      have hfits : n / 128 < 2 ^ (64 - 7 * (idx + 1)) := by
        have hexp : 64 - 7 * idx = (64 - 7 * (idx + 1)) + 7 := by omega
        rw [hexp, pow_add] at hn
        exact Nat.div_lt_of_lt_mul (by
          have h7 : (2 : Nat) ^ 7 = 128 := by norm_num
          rw [h7] at hn; omega)
      have hval : n % 128 + 128 * (n / 128) = n := Nat.mod_add_div n 128
      simp [parseVarintAux, hb, h9, ih (n / 128) hlt (idx + 1) (by omega) hfits, hval]

/-- Round-trip of the `u64` varint codec on values below `2 ^ 64`. -/
theorem parseVarint_encode (n : Nat) (rest : List Nat) (hn : n < 2 ^ 64) :
    parseVarint (encodeVarint n ++ rest) = some (n, rest) := by
  exact parseVarintAux_encode n 0 rest (by omega) (by simpa using hn)

/-- Round-trip of the length-prefixed byte-string codec for contents
within capacity. -/
theorem parseBytes_encode (l : List Nat) (cap : Nat) (rest : List Nat)
    (hcap : l.length ≤ cap) (hbound : cap < 2 ^ 64) :
    parseBytes cap (encodeBytes l ++ rest) = some (l, rest) := by
  unfold parseBytes encodeBytes
  rw [List.append_assoc, parseVarint_encode l.length (l ++ rest) (by omega)]
  simp [hcap, List.take_append_of_le_length, List.drop_append_of_le_length]

/-- Round-trip of the handle codec. -/
theorem parseHandle_encode (h : ObjectHandle) (rest : List Nat)
    (hwf : h.object_id.length = 16) :
    parseHandle (encodeHandle h ++ rest) = some (h, rest) := by
  unfold parseHandle encodeHandle
  have h1 : 16 ≤ (h.object_id ++ rest).length := by simp [hwf]
  simp only [h1, if_pos]
  rw [List.take_append_of_le_length (by omega), List.drop_append_of_le_length (by omega)]
  have ht : h.object_id.take 16 = h.object_id := List.take_of_length_le (by omega)
  have hd : h.object_id.drop 16 = [] := List.drop_eq_nil_of_le (by omega)
  rw [ht, hd]
  simp

/-- Round-trip of the `bool` codec. -/
theorem parseBool_encode (b : Bool) (rest : List Nat) :
    parseBool (encodeBool b ++ rest) = some (b, rest) := by
  cases b <;> simp [parseBool, encodeBool]

/-! ### Record round-trips -/

theorem parseKeyInfo_encode (k : KeyInfo) (rest : List Nat) (hwf : k.wf) :
    parseKeyInfo (encodeKeyInfo k ++ rest) = some (k, rest) := by
  obtain ⟨hlen, _, hhandle, _⟩ := hwf
  unfold parseKeyInfo encodeKeyInfo
  rw [List.append_assoc]
  simp only [parseBytes_encode k.label 256 _ hlen (by norm_num),
    parseHandle_encode k.privkey rest hhandle]

theorem decodeKeyInfo_encode (k : KeyInfo) (hwf : k.wf) :
    decodeKeyInfo (encodeKeyInfo k) = some k := by
  have h := parseKeyInfo_encode k [] hwf
  rw [List.append_nil] at h
  unfold decodeKeyInfo
  rw [h]
  rfl

theorem parseCredential_encode (c : Credential) (rest : List Nat) (hwf : c.wf) :
    parseCredential (encodeCredential c ++ rest) = some (c, rest) := by
  obtain ⟨hlen, _, hperiod, hhandle, _⟩ := hwf
  unfold parseCredential encodeCredential
  rw [List.append_assoc, List.append_assoc]
  simp only [parseBytes_encode c.label 256 _ hlen (by norm_num),
    parseVarint_encode c.period_seconds _ hperiod,
    parseHandle_encode c.key_handle rest hhandle]

theorem decodeCredential_encode (c : Credential) (hwf : c.wf) :
    decodeCredential (encodeCredential c) = some c := by
  have h := parseCredential_encode c [] hwf
  rw [List.append_nil] at h
  unfold decodeCredential
  rw [h]
  rfl

theorem parseOptionKeyInfo_encode (e : Option KeyInfo) (rest : List Nat)
    (hwf : ∀ k, e = some k → k.wf) :
    parseOptionKeyInfo (encodeOptionKeyInfo e ++ rest) = some (e, rest) := by
  cases e with
  | none => simp [parseOptionKeyInfo, encodeOptionKeyInfo]
  | some k =>
    simp only [encodeOptionKeyInfo, List.cons_append, parseOptionKeyInfo]
    simp only [parseKeyInfo_encode k rest (hwf k rfl)]
    norm_num

theorem parseVaultElems_encode (v : List (Option KeyInfo)) (rest : List Nat)
    (hwf : ∀ e ∈ v, ∀ k, e = some k → k.wf) :
    parseVaultElems v.length ((v.map encodeOptionKeyInfo).flatten ++ rest) =
      some (v, rest) := by
  induction v with
  | nil => simp [parseVaultElems]
  | cons e es ih =>
    simp only [List.map_cons, List.flatten_cons, List.length_cons, List.append_assoc]
    unfold parseVaultElems
    simp only [parseOptionKeyInfo_encode e _ (fun k hk => hwf e (by simp) k hk),
      ih (fun x hx k hk => hwf x (by simp [hx]) k hk)]

theorem parseKeyVault_encode (v : List (Option KeyInfo)) (rest : List Nat)
    (hwf : vaultWf v) :
    parseKeyVault (encodeKeyVault v ++ rest) = some (v, rest) := by
  obtain ⟨hlen, hent⟩ := hwf
  unfold parseKeyVault encodeKeyVault
  rw [List.append_assoc]
  simp only [parseVarint_encode v.length _ (by
    have h8 : (2 : Nat) ^ 64 > 8 := by norm_num
    omega)]
  simp only [hlen, if_pos]
  exact parseVaultElems_encode v rest hent

theorem decodeKeyVault_encode (v : List (Option KeyInfo)) (hwf : vaultWf v) :
    decodeKeyVault (encodeKeyVault v) = some v := by
  have h := parseKeyVault_encode v [] hwf
  rw [List.append_nil] at h
  unfold decodeKeyVault
  rw [h]
  rfl

theorem decodeUnlockStatus_encode (s : UnlockStatus) :
    decodeUnlockStatus (encodeUnlockStatus s) = some s := by
  have h := parseBool_encode s.is_unlocked []
  rw [List.append_nil] at h
  unfold decodeUnlockStatus encodeUnlockStatus
  rw [h]
  rfl

/-! ## Helper lemmas -/

theorem FileStore.write_self (s : FileStore) (p : String) (d : List Nat) :
    (s.write p d) p = some d := by
  simp [FileStore.write]

theorem FileStore.write_other (s : FileStore) (p q : String) (d : List Nat)
    (h : q ≠ p) : (s.write p d) q = s q := by
  simp [FileStore.write, h]

theorem char_toNat_lt (c : Char) : c.toNat < 1114112 := by
  have h := c.valid
  rcases h with h | ⟨_, h2⟩
  · exact Nat.lt_trans h (by norm_num)
  · exact h2

theorem utf8EncodeCharNat_lt_256 (c : Char) : ∀ b ∈ utf8EncodeCharNat c, b < 256 := by
  have hv := char_toNat_lt c
  unfold utf8EncodeCharNat
  intro b hb
  by_cases h1 : c.toNat < 128
  · simp [h1] at hb; omega
  · by_cases h2 : c.toNat < 2048
    · simp [h1, h2] at hb
      have hd : c.toNat / 64 < 32 := by omega
      have hm : c.toNat % 64 < 64 := Nat.mod_lt _ (by norm_num)
      rcases hb with hb | hb <;> omega
    · by_cases h3 : c.toNat < 65536
      · simp [h1, h2, h3] at hb
        have hd : c.toNat / 4096 < 16 := by omega
        have hm1 : c.toNat / 64 % 64 < 64 := Nat.mod_lt _ (by norm_num)
        have hm2 : c.toNat % 64 < 64 := Nat.mod_lt _ (by norm_num)
        rcases hb with hb | hb | hb <;> omega
      · simp [h1, h2, h3] at hb
        have hd : c.toNat / 262144 < 5 := by omega
        have hm1 : c.toNat / 4096 % 64 < 64 := Nat.mod_lt _ (by norm_num)
        have hm2 : c.toNat / 64 % 64 < 64 := Nat.mod_lt _ (by norm_num)
        have hm3 : c.toNat % 64 < 64 := Nat.mod_lt _ (by norm_num)
        rcases hb with hb | hb | hb | hb <;> omega

theorem strBytes_lt_256 (s : String) : ∀ b ∈ strBytes s, b < 256 := by
  intro b hb
  unfold strBytes at hb
  rw [List.mem_flatten] at hb
  obtain ⟨l, hl, hbl⟩ := hb
  rw [List.mem_map] at hl
  obtain ⟨c, _, rfl⟩ := hl
  exact utf8EncodeCharNat_lt_256 c b hbl

theorem encodeVarint_length_le (n : Nat) (h : n < 2 ^ 64) :
    (encodeVarint n).length ≤ 11 := by
  have hgen : ∀ m : Nat, ∀ j : Nat, m < 2 ^ (7 * j) → (encodeVarint m).length ≤ j + 1 := by
    intro m
    induction m using Nat.strong_induction_on with
    | _ m ih =>
      intro j hm
      by_cases hs : m < 128
      · rw [encodeVarint_small m hs]
        simp
      · rw [encodeVarint_large m hs]
        have hj : j ≠ 0 := by
          intro h0; subst h0; simp at hm; omega
        obtain ⟨j', rfl⟩ : ∃ j', j = j' + 1 := ⟨j - 1, by omega⟩
        have hlt : m / 128 < m := Nat.div_lt_self (by omega) (by omega)
        have hfit : m / 128 < 2 ^ (7 * j') := by
          have hexp : 7 * (j' + 1) = 7 * j' + 7 := by ring
          rw [hexp, pow_add] at hm
          have h7 : (2 : Nat) ^ 7 = 128 := by norm_num
          rw [h7] at hm
          exact Nat.div_lt_of_lt_mul (by omega)
        have := ih (m / 128) hlt j' hfit
        simp only [List.length_cons]
        omega
  have h70 : (7 : Nat) * 10 = 70 := by norm_num
  have := hgen n 10 (by
    rw [h70]
    calc n < 2 ^ 64 := h
    _ ≤ 2 ^ 70 := Nat.pow_le_pow_right (by norm_num) (by norm_num))
  omega

theorem encodeBytes_length (l : List Nat) (h : l.length < 2 ^ 64) :
    (encodeBytes l).length ≤ 11 + l.length := by
  unfold encodeBytes
  have := encodeVarint_length_le l.length h
  rw [List.length_append]
  omega

theorem labelInVault_iff (v : List (Option KeyInfo)) (lab : List Nat) :
    labelInVault v lab = true ↔ lab ∈ presentLabels v := by
  unfold labelInVault presentLabels
  rw [List.any_eq_true]
  constructor
  · rintro ⟨e, he, hmatch⟩
    cases e with
    | none => simp at hmatch
    | some k =>
      simp only [beq_iff_eq] at hmatch
      rw [List.mem_filterMap]
      exact ⟨some k, he, by simp [hmatch]⟩
  · intro hmem
    rw [List.mem_filterMap] at hmem
    obtain ⟨e, he, hmap⟩ := hmem
    cases e with
    | none => simp at hmap
    | some k =>
      simp at hmap
      exact ⟨some k, he, by simp [hmap]⟩

theorem presentLabels_append_single (v : List (Option KeyInfo)) (k : KeyInfo) :
    presentLabels (v ++ [some k]) = presentLabels v ++ [k.label] := by
  unfold presentLabels
  simp

theorem get_list_keys_eq (store : FileStore) (bytes : List Nat)
    (v : List (Option KeyInfo)) (hread : store keyStorePath = some bytes)
    (hdec : decodeKeyVault bytes = some v) :
    Wireguard.get_list_keys store = .ok v := by
  unfold Wireguard.get_list_keys
  simp only [hread, hdec]

theorem get_list_keys_corrupt (store : FileStore) (bytes : List Nat)
    (hread : store keyStorePath = some bytes)
    (hdec : decodeKeyVault bytes = none) :
    Wireguard.get_list_keys store = .ok [] := by
  unfold Wireguard.get_list_keys
  simp only [hread, hdec]

/-- The vault encoding of a decoded collection is small: every label
was capacity-checked at 256 bytes, the handle is 16 bytes, so each of
the at most 8 entries encodes into at most 285 bytes. -/
theorem encodeKeyVault_length_le (v : List (Option KeyInfo)) (hwf : vaultWf v) :
    (encodeKeyVault v).length ≤ 11 + 8 * 285 := by
  obtain ⟨hlen, hent⟩ := hwf
  unfold encodeKeyVault
  have hvar := encodeVarint_length_le v.length (by
    have h8 : (2 : Nat) ^ 64 > 8 := by norm_num
    omega)
  have helem : ∀ e ∈ v, (encodeOptionKeyInfo e).length ≤ 285 := by
    intro e he
    cases e with
    | none => simp [encodeOptionKeyInfo]
    | some k =>
      obtain ⟨hklen, _, hhand, _⟩ := hent (some k) he k rfl
      simp only [encodeOptionKeyInfo, List.length_cons, encodeKeyInfo,
        List.length_append, encodeHandle]
      have := encodeBytes_length k.label (by
        have h64 : (256 : Nat) < 2 ^ 64 := by norm_num
        omega)
      omega
  have hflat : ((v.map encodeOptionKeyInfo).flatten).length ≤ 285 * v.length := by
    clear hvar hlen
    induction v with
    | nil => simp
    | cons e es ih =>
      simp only [List.map_cons, List.flatten_cons, List.length_append, List.length_cons]
      have h1 := helem e (by simp)
      have h2 := ih (fun x hx k hk => hent x (by simp [hx]) k hk)
        (fun x hx => helem x (by simp [hx]))
      omega
  simp only [List.length_append]
  omega

/-- Characterization of `add_to_key_store` on a readable collection
that fits the write buffers: a duplicate present label fails,
otherwise the collection — extended by the entry when a slot is free,
unchanged when full — is rewritten. -/
theorem add_to_key_store_eq (store : FileStore) (bytes : List Nat)
    (v : List (Option KeyInfo)) (val : KeyInfo)
    (hread : store keyStorePath = some bytes)
    (hdec : decodeKeyVault bytes = some v)
    (hsize : (encodeKeyVault (if v.length < 8 then v ++ [some val] else v)).length ≤ 1024) :
    Wireguard.add_to_key_store store val =
      if labelInVault v val.label then .error (.failure "This key exists")
      else .ok (store.write keyStorePath
        (encodeKeyVault (if v.length < 8 then v ++ [some val] else v))) := by
  unfold Wireguard.add_to_key_store
  rw [get_list_keys_eq store bytes v hread hdec]
  by_cases hdup : labelInVault v val.label
  · simp [hdup]
  · have hten : ¬((encodeKeyVault (if v.length < 8 then v ++ [some val] else v)).length > 10000) := by
      omega
    simp only [hdup, Bool.false_eq_true, if_false, if_neg hten, writeMessage, if_pos hsize]

/-! ## The claims -/

/-- Claim C10: `get_aead` returns the constant all-zero 32-byte AEAD
value for every store state and all parameters — independent of the
peer public key, the chaining values, the key identifier and any
stored private key. -/
theorem c10_get_aead_constant_zero :
    ∀ (store : FileStore) (parameters : GetAead),
      Wireguard.get_aead store parameters = .ok ⟨List.replicate 32 0⟩ :=
  fun _ _ => rfl

/-- Claim C1 (code bug): with the persisted unlock status Locked,
`generate_key_pair` does not fail with the device-locked error — it
generates the key pair, writes it into the persisted collection and
returns success; `update_key_pair` and `delete_key_pair` also skip
the gate; only `register_key_pair` checks it and fails. -/
theorem c1_generate_key_pair_ignores_lock :
    Wireguard.is_unlocked lockedStore = .ok false ∧
    (Wireguard.generate_key_pair lockedStore ⟨"k1"⟩ handle1 (List.replicate 32 2)).map
        (fun r => r.2 keyStorePath) =
      .ok (some (encodeKeyVault [some ⟨strBytes "k1", handle1⟩])) ∧
    Wireguard.register_key_pair lockedStore
        ⟨List.replicate 32 0, List.replicate 32 0, "k1"⟩ =
      .error (.failure "Device is locked. Unlock first.") ∧
    (Wireguard.update_key_pair lockedStore
        ⟨List.replicate 32 0, List.replicate 32 0, "k1"⟩).isOk = true ∧
    (Wireguard.delete_key_pair lockedStore ⟨0⟩).isOk = true := by
  refine ⟨by decide, by decide, rfl, rfl, rfl⟩

/-- Claim C8 (code bug): `delete_key_pair` is a stub.  On an unlocked
device whose collection holds an entry it returns success without
looking the entry up, without writing a tombstone and without
touching storage: the persisted collection afterwards still holds
the untouched entry in its slot. -/
theorem c8_delete_key_pair_is_noop :
    Wireguard.is_unlocked unlockedOneKeyStore = .ok true ∧
    Wireguard.delete_key_pair unlockedOneKeyStore ⟨0⟩ = .ok ((), unlockedOneKeyStore) ∧
    unlockedOneKeyStore keyStorePath =
      some (encodeKeyVault [some ⟨strBytes "k1", handle1⟩]) := by
  refine ⟨by decide, rfl, by decide⟩

/-- Claim C7 counterexample: with the vault-collection record absent,
`list_keys` does not return the empty collection — the backend read
fails and the `syscall!` panics, in both the collection reader
`get_list_keys` and the public `list_keys`. -/
theorem c7_counterexample :
    Wireguard.list_keys FileStore.empty = .error (.panicked "read_file failed") ∧
    Wireguard.get_list_keys FileStore.empty = .error (.panicked "read_file failed") :=
  ⟨rfl, rfl⟩

/-- Claim C7 amended: when the record is present but its bytes fail
to decode, the collection read yields the empty collection and no
error reaches the caller; a missing record, by contrast, panics
rather than defaulting to empty. -/
theorem c7_corrupt_record_reads_empty (store : FileStore) (bytes : List Nat)
    (hread : store keyStorePath = some bytes)
    (hdec : decodeKeyVault bytes = none) :
    Wireguard.get_list_keys store = .ok [] ∧
    Wireguard.list_keys store =
      .ok { id := 0, label := "A key label!", pubkey := List.replicate 32 0 } := by
  have h := get_list_keys_corrupt store bytes hread hdec
  refine ⟨h, ?_⟩
  unfold Wireguard.list_keys
  rw [h]
  rfl

/-- Witness for C7 at the concrete corrupt store. -/
theorem c7_witness :
    Wireguard.get_list_keys corruptStore = .ok [] ∧
    Wireguard.list_keys corruptStore =
      .ok { id := 0, label := "A key label!", pubkey := List.replicate 32 0 } :=
  c7_corrupt_record_reads_empty corruptStore [2] (by decide) (by decide)

/-- Claim C9: the postcard codecs of the three record shapes
round-trip — decoding the encoding restores every field (the
variable-length label included) exactly, for all valid values:
labels of at most 256 bytes, u64 periods, 16-byte handle ids, at
most 8 vault slots. -/
theorem c9_round_trip :
    (∀ c : Credential, c.wf → decodeCredential (encodeCredential c) = some c) ∧
    (∀ k : KeyInfo, k.wf → decodeKeyInfo (encodeKeyInfo k) = some k) ∧
    (∀ v : List (Option KeyInfo), vaultWf v →
      decodeKeyVault (encodeKeyVault v) = some v) :=
  ⟨decodeCredential_encode, decodeKeyInfo_encode, decodeKeyVault_encode⟩

/-- Witness for C9 at concrete records. -/
theorem c9_witness :
    decodeCredential (encodeCredential sampleCredential) = some sampleCredential ∧
    decodeKeyInfo (encodeKeyInfo ⟨strBytes "a", handle1⟩) =
      some ⟨strBytes "a", handle1⟩ ∧
    decodeKeyVault (encodeKeyVault sampleVault) = some sampleVault :=
  ⟨c9_round_trip.1 sampleCredential (by decide),
   c9_round_trip.2.1 ⟨strBytes "a", handle1⟩ (by decide),
   c9_round_trip.2.2 sampleVault (by decide)⟩

set_option maxRecDepth 16384 in
/-- Claim C2 counterexample: on a store whose persisted collection
occupies all 8 slots, adding a fresh ninth label does not fail with a
vault-full error — the call returns success. -/
theorem c2_counterexample :
    (Wireguard.add_to_key_store fullStore ⟨strBytes "k9", handle1⟩).isOk = true := by
  decide

/-- Claim C2 amended: when the stored collection already occupies all
8 slots, `add_to_key_store` with a fresh label does not fail with
`VaultFull`: the push failure is silently ignored, the call returns
success, and the persisted collection is rewritten unchanged — the
new entry is dropped on the floor. -/
theorem c2_full_vault_add_silently_drops (store : FileStore) (bytes : List Nat)
    (v : List (Option KeyInfo)) (val : KeyInfo)
    (hread : store keyStorePath = some bytes)
    (hdec : decodeKeyVault bytes = some v)
    (hlen : v.length = 8)
    (hfresh : labelInVault v val.label = false)
    (hsize : (encodeKeyVault v).length ≤ 1024) :
    Wireguard.add_to_key_store store val =
      .ok (store.write keyStorePath (encodeKeyVault v)) := by
  have hnotlt : ¬(v.length < 8) := by omega
  have h := add_to_key_store_eq store bytes v val hread hdec (by
    rw [if_neg hnotlt]; exact hsize)
  rw [h, if_neg (by simp [hfresh]), if_neg hnotlt]

set_option maxRecDepth 16384 in
/-- Witness for C2 at the concrete full store. -/
theorem c2_witness :
    Wireguard.add_to_key_store fullStore ⟨strBytes "k9", handle1⟩ =
      .ok (fullStore.write keyStorePath (encodeKeyVault fullVault)) :=
  c2_full_vault_add_silently_drops fullStore (encodeKeyVault fullVault) fullVault
    ⟨strBytes "k9", handle1⟩ (by decide) (by decide) (by decide) (by decide) (by decide)

/-- Claim C4: adding an entry whose label equals the label of a
present entry of the stored collection fails with the
duplicate-label error (the code raises "This key exists"), and the
failure occurs before the write step, so the persisted collection is
unchanged; moreover a successful `add_to_key_store` preserves the
no-two-present-entries-share-a-label invariant, so the collection
reachable through the vault operations never holds a duplicate. -/
theorem c4_add_key_dedup :
    (∀ (store : FileStore) (bytes : List Nat) (v : List (Option KeyInfo)) (val : KeyInfo),
      store keyStorePath = some bytes → decodeKeyVault bytes = some v →
      labelInVault v val.label = true →
      Wireguard.add_to_key_store store val = .error (.failure "This key exists")) ∧
    (∀ (store store' : FileStore) (bytes : List Nat) (v : List (Option KeyInfo))
      (val : KeyInfo),
      store keyStorePath = some bytes → decodeKeyVault bytes = some v →
      vaultWf v → val.wf → distinctLabels v →
      Wireguard.add_to_key_store store val = .ok store' →
      ∃ v', store' keyStorePath = some (encodeKeyVault v') ∧
        decodeKeyVault (encodeKeyVault v') = some v' ∧ distinctLabels v') := by
  constructor
  · intro store bytes v val hread hdec hdup
    unfold Wireguard.add_to_key_store
    rw [get_list_keys_eq store bytes v hread hdec]
    simp [hdup]
  · intro store store' bytes v val hread hdec hwf hvwf hdist hok
    unfold Wireguard.add_to_key_store at hok
    rw [get_list_keys_eq store bytes v hread hdec] at hok
    by_cases hdup : labelInVault v val.label
    · simp [hdup] at hok
    · simp only [hdup, Bool.false_eq_true, if_false] at hok
      have hstore' : store' =
          store.write keyStorePath
            (encodeKeyVault (if v.length < 8 then v ++ [some val] else v)) := by
        by_cases hsz :
            (encodeKeyVault (if v.length < 8 then v ++ [some val] else v)).length > 10000
        · rw [if_pos hsz] at hok; cases hok
        · rw [if_neg hsz] at hok
          unfold writeMessage at hok
          by_cases hsz2 :
              (encodeKeyVault (if v.length < 8 then v ++ [some val] else v)).length ≤ 1024
          · rw [if_pos hsz2] at hok
            injection hok with h
            exact h.symm
          · rw [if_neg hsz2] at hok; cases hok
      refine ⟨if v.length < 8 then v ++ [some val] else v, ?_, ?_, ?_⟩
      · rw [hstore']
        exact FileStore.write_self store keyStorePath _
      · apply decodeKeyVault_encode
        split
        · obtain ⟨hl, he⟩ := hwf
          constructor
          · rw [List.length_append]
            simp; omega
          · intro e hm k hk
            rcases List.mem_append.mp hm with hm | hm
            · exact he e hm k hk
            · simp only [List.mem_singleton] at hm
              subst hm
              cases hk
              exact hvwf
        · exact hwf
      · split
        · unfold distinctLabels
          rw [presentLabels_append_single]
          rw [List.nodup_append]
          refine ⟨hdist, List.nodup_singleton _, ?_⟩
          intro a ha hmem
          simp only [List.mem_singleton] at hmem
          subst hmem
          exact hdup ((labelInVault_iff v val.label).mpr ha)
        · exact hdist

set_option maxRecDepth 16384 in
/-- Witness for C4: the duplicate-label rejection and the invariant
preservation, each at a concrete one-entry store. -/
theorem c4_witness :
    Wireguard.add_to_key_store oneKeyStore ⟨strBytes "k1", handle2⟩ =
      .error (.failure "This key exists") ∧
    ∃ v', (oneKeyStore.write keyStorePath
        (encodeKeyVault [some ⟨strBytes "k1", handle1⟩, some ⟨strBytes "k2", handle2⟩]))
        keyStorePath = some (encodeKeyVault v') ∧
      decodeKeyVault (encodeKeyVault v') = some v' ∧ distinctLabels v' :=
  ⟨c4_add_key_dedup.1 oneKeyStore (encodeKeyVault [some ⟨strBytes "k1", handle1⟩])
      [some ⟨strBytes "k1", handle1⟩] ⟨strBytes "k1", handle2⟩
      (by decide) (by decide) (by decide),
   c4_add_key_dedup.2 oneKeyStore
      (oneKeyStore.write keyStorePath
        (encodeKeyVault [some ⟨strBytes "k1", handle1⟩, some ⟨strBytes "k2", handle2⟩]))
      (encodeKeyVault [some ⟨strBytes "k1", handle1⟩])
      [some ⟨strBytes "k1", handle1⟩] ⟨strBytes "k2", handle2⟩
      (by decide) (by decide) (by decide) (by decide) (by decide) (by rfl)⟩

/-- Claim C3 counterexample: `Register` with `period_seconds = 0` and
a valid 20-byte secret does not fail at registration — the call
returns success. -/
theorem c3_counterexample :
    (Authenticator.register hashZero handle1 FileStore.empty
      ⟨"alice", secret32, 0⟩).isOk = true := by
  decide

/-- Claim C3 amended: `register` performs no period validation — it
accepts `period_seconds = 0` and persists the credential, and every
subsequent `authenticate` against that credential panics with a
division by zero at `timestamp / period_seconds` instead of
computing a counter. -/
theorem c3_register_accepts_zero_period (hash : List Nat → List Nat)
    (injected : ObjectHandle) (store : FileStore) (label secret : String)
    (raw : List Nat)
    (hsec : base32Decode secret = some raw) (hlen : raw.length = 20)
    (hlab : (strBytes label).length ≤ 256) (hinj : injected.wf) :
    Authenticator.register hash injected store ⟨label, secret, 0⟩ =
      .ok (store.write (Authenticator.filename_for_label hash label)
        (encodeCredential ⟨strBytes label, 0, injected⟩)) ∧
    ∀ (sign_totp : ObjectHandle → Nat → List Nat) (user_present : Bool) (t : Nat),
      Authenticator.authenticate hash sign_totp user_present
        (store.write (Authenticator.filename_for_label hash label)
          (encodeCredential ⟨strBytes label, 0, injected⟩)) ⟨label, t⟩ =
      .error (.panicked "attempt to divide by zero") := by
  have hcwf : (⟨strBytes label, 0, injected⟩ : Credential).wf :=
    ⟨hlab, strBytes_lt_256 label, by norm_num, hinj⟩
  have hsize : (encodeCredential ⟨strBytes label, 0, injected⟩).length ≤ 512 := by
    unfold encodeCredential encodeHandle
    have h1 := encodeBytes_length (strBytes label) (by
      have : (256 : Nat) < 2 ^ 64 := by norm_num
      omega)
    have h2 := encodeVarint_length_le 0 (by norm_num)
    obtain ⟨hh, _⟩ := hinj
    simp only [List.length_append]
    simp only at h1 h2
    omega
  constructor
  · unfold Authenticator.register
    simp only [hsec]
    rw [if_neg (show ¬(raw.length ≠ 20) by omega)]
    rw [if_neg (show ¬((strBytes label).length > 256) by omega)]
    rw [if_neg (show
      ¬((encodeCredential ⟨strBytes label, 0, injected⟩).length > 512) by omega)]
    unfold writeMessage
    rw [if_pos (show
      (encodeCredential ⟨strBytes label, 0, injected⟩).length ≤ 1024 by omega)]
  · intro sign_totp user_present t
    unfold Authenticator.authenticate
    simp only [FileStore.write_self, decodeCredential_encode _ hcwf]
    rfl

/-- Witness for C3 at concrete inputs: registering with period 0
succeeds, and authenticating afterwards panics dividing by zero. -/
theorem c3_witness :
    Authenticator.register hashZero handle1 FileStore.empty ⟨"alice", secret32, 0⟩ =
      .ok (FileStore.empty.write (Authenticator.filename_for_label hashZero "alice")
        (encodeCredential ⟨strBytes "alice", 0, handle1⟩)) ∧
    Authenticator.authenticate hashZero signEcho true
      (FileStore.empty.write (Authenticator.filename_for_label hashZero "alice")
        (encodeCredential ⟨strBytes "alice", 0, handle1⟩)) ⟨"alice", 90⟩ =
      .error (.panicked "attempt to divide by zero") :=
  ⟨(c3_register_accepts_zero_period hashZero handle1 FileStore.empty "alice" secret32
      [72, 101, 108, 108, 111, 33, 222, 173, 190, 239,
       72, 101, 108, 108, 111, 33, 222, 173, 190, 239]
      (by decide) (by decide) (by decide) (by decide)).1,
   (c3_register_accepts_zero_period hashZero handle1 FileStore.empty "alice" secret32
      [72, 101, 108, 108, 111, 33, 222, 173, 190, 239,
       72, 101, 108, 108, 111, 33, 222, 173, 190, 239]
      (by decide) (by decide) (by decide) (by decide)).2 signEcho true 90⟩

/-- Claim C5: counter correctness of `authenticate` — with a stored
credential of period p > 0, user presence confirmed and a signature
of at least 8 bytes, every timestamp in [k * p, (k + 1) * p) makes
the code call the TOTP signing operation with counter exactly k
(integer division rounds down; timestamp = k * p in particular),
and the OTP comes from the first 8 bytes of that signature. -/
theorem c5_counter_division (hash : List Nat → List Nat)
    (sign_totp : ObjectHandle → Nat → List Nat) (store : FileStore)
    (label : String) (bytes : List Nat) (cred : Credential) (t k : Nat)
    (hread : store (Authenticator.filename_for_label hash label) = some bytes)
    (hdec : decodeCredential bytes = some cred)
    (hpos : 0 < cred.period_seconds)
    (hlo : k * cred.period_seconds ≤ t)
    (hhi : t < (k + 1) * cred.period_seconds)
    (hsig : 8 ≤ (sign_totp cred.key_handle k).length) :
    Authenticator.authenticate hash sign_totp true store ⟨label, t⟩ =
      .ok ⟨u64le ((sign_totp cred.key_handle k).take 8)⟩ := by
  have hdiv : t / cred.period_seconds = k := Nat.div_eq_of_lt_le hlo hhi
  unfold Authenticator.authenticate
  rw [hread]
  simp only [hdec]
  rw [if_neg (by omega)]
  simp only [hdiv]
  simp only [Bool.not_true, Bool.false_eq_true, if_false]
  rw [if_neg (by omega)]

/-- Witness for C5: timestamp 90 with period 30 gives counter 3. -/
theorem c5_witness :
    Authenticator.authenticate hashZero signEcho true credStore ⟨"alice@example", 90⟩ =
      .ok ⟨u64le ((signEcho sampleCredential.key_handle 3).take 8)⟩ :=
  c5_counter_division hashZero signEcho credStore "alice@example"
    (encodeCredential sampleCredential) sampleCredential 90 3
    (by decide) (by decide) (by decide) (by decide) (by decide) (by decide)

theorem hexByte_length (b : Nat) : (hexByte b).length = 2 := rfl

theorem hexRender_length (bytes : List Nat) :
    (hexRender bytes).length = 2 * bytes.length := by
  unfold hexRender
  show ((bytes.map hexByte).flatten).length = 2 * bytes.length
  induction bytes with
  | nil => simp
  | cons b bs ih =>
    simp only [List.map_cons, List.flatten_cons, List.length_append, ih,
      hexByte_length, List.length_cons]
    omega

theorem hexChars_getD_mem : ∀ i : Fin 16, hexChars.getD i.val '?' ∈ hexChars := by
  decide

theorem hexRender_mem (bytes : List Nat) (hb : ∀ b ∈ bytes, b < 256) :
    ∀ ch ∈ (hexRender bytes).data, ch ∈ hexChars := by
  intro ch hch
  unfold hexRender at hch
  simp only [List.mem_flatten] at hch
  obtain ⟨piece, hpiece, hchp⟩ := hch
  rw [List.mem_map] at hpiece
  obtain ⟨b, hbmem, rfl⟩ := hpiece
  have hb256 := hb b hbmem
  unfold hexByte at hchp
  have h1 : b / 16 < 16 := by omega
  have h2 : b % 16 < 16 := by omega
  simp only [List.mem_cons, List.not_mem_nil, or_false] at hchp
  rcases hchp with h | h
  · subst h
    exact hexChars_getD_mem ⟨b / 16, h1⟩
  · subst h
    exact hexChars_getD_mem ⟨b % 16, h2⟩

/-- Claim C6: `filename_for_label` is a pure deterministic function
of the label — equal label bytes always give equal storage paths —
and its value is the first 8 bytes of the backend SHA-256 digest of
the label bytes rendered as exactly 16 lowercase hexadecimal
characters. -/
theorem c6_filename_for_label_deterministic (hash : List Nat → List Nat)
    (label : String)
    (hlen : 8 ≤ (hash (strBytes label)).length)
    (hbytes : ∀ b ∈ hash (strBytes label), b < 256) :
    Authenticator.filename_for_label hash label =
      hexRender ((hash (strBytes label)).take 8) ∧
    (Authenticator.filename_for_label hash label).length = 16 ∧
    (∀ ch ∈ (Authenticator.filename_for_label hash label).data, ch ∈ hexChars) ∧
    (∀ label2 : String, strBytes label2 = strBytes label →
      Authenticator.filename_for_label hash label2 =
        Authenticator.filename_for_label hash label) := by
  refine ⟨rfl, ?_, ?_, ?_⟩
  · unfold Authenticator.filename_for_label
    rw [hexRender_length, List.length_take]
    omega
  · unfold Authenticator.filename_for_label
    exact hexRender_mem _ (fun b hbm => hbytes b (List.mem_of_mem_take hbm))
  · intro label2 heq
    unfold Authenticator.filename_for_label
    rw [heq]

/-- Witness for C6 at a concrete hash oracle and label. -/
theorem c6_witness :
    Authenticator.filename_for_label hashZero "alice" =
      hexRender ((hashZero (strBytes "alice")).take 8) ∧
    (Authenticator.filename_for_label hashZero "alice").length = 16 ∧
    (∀ ch ∈ (Authenticator.filename_for_label hashZero "alice").data, ch ∈ hexChars) ∧
    (∀ label2 : String, strBytes label2 = strBytes "alice" →
      Authenticator.filename_for_label hashZero label2 =
        Authenticator.filename_for_label hashZero "alice") :=
  c6_filename_for_label_deterministic hashZero "alice" (by decide) (by decide)

end TotpTutorial
